import Mathlib

/-!
Verification of the `liblog` asynchronous JSON logger.

The Go sources are shallowly embedded: pure fragments become Lean
functions on `List Char` / `String` / `Int`, the stateful logger
(message pool, bounded output channel, side-channel notices) becomes
explicit state passing over a `LoggerState` record, and operations that
can panic in Go (closing a closed channel) return `Except String`.
External effects (wall-clock timestamps, `runtime.Caller` results,
`fmt.Sprintf` formatting) enter the model as explicit parameters.
Go byte strings are modelled at character granularity.
-/

set_option maxRecDepth 4000

namespace Liblog

/-- Log levels, `src/log.go` lines 17-22: `type LogLevel int` with the four
named values 0..3. -/
def DebugLevel : Int := 0

/-- `InfoLevel LogLevel = LogLevel(1)`. -/
def InfoLevel : Int := 1

/-- `WarningLevel LogLevel = LogLevel(2)`. -/
def WarningLevel : Int := 2

/-- `ErrorLevel LogLevel = LogLevel(3)`. -/
def ErrorLevel : Int := 3

/-- `LogLevel.String()`, `src/log.go` lines 24-36. -/
def levelString (l : Int) : String :=
  if l = DebugLevel then "DEBUG"
  else if l = InfoLevel then "INFO"
  else if l = WarningLevel then "WARNING"
  else if l = ErrorLevel then "ERROR"
  else "LEVEL" ++ toString l

/-- One in-flight message record, `src/log.go` lines 38-46.  The
`values []interface{}` argument list is elided (it is only ever passed to
`fmt.Fprintf`, whose result enters the model as the already-formatted
text); the legacy `Module`/`ModuleId` fields are never read by the
current `writeMessage`, which uses `logger.module` / `logger.id`, and are
omitted here. -/
structure LogMsg where
  Level : Int
  format : String
  SrcFile : String
  SrcLine : Int
deriving DecidableEq, Repr

/-- One step of the escaping loop in `writeMessage`, `src/log.go` lines
93-108: the bytes written for one decoded rune.  Backslash and double
quote are backslash-escaped, newline / carriage return / tab become the
two-character sequences `\n` / `\r` / `\t`, every other rune is written
unchanged. -/
def escapeChar (c : Char) : List Char :=
  if c = '"' ∨ c = '\\' then ['\\', c]
  else if c = '\n' then ['\\', 'n']
  else if c = '\r' then ['\\', 'r']
  else if c = '\t' then ['\\', 't']
  else [c]

/-- The whole escaping loop of `writeMessage` (`src/log.go` lines 92-109):
the formatted message text, rune by rune, each rune contributing
`escapeChar`'s output to the scratch buffer. -/
def escapeMessage : List Char → List Char
  | [] => []
  | c :: rest => escapeChar c ++ escapeMessage rest

/-- JSON string-content unescaping (the inverse direction used by the
round-trip property): a backslash introduces one of the five escapes
produced by `escapeChar`, any other character stands for itself.  This
definition follows the spec's words for "JSON-unescaped"; it is the
comparison point for the round-trip claim, not a translation of repo
code. -/
def unescapeMessage : List Char → Option (List Char)
  | [] => some []
  | c :: rest =>
    if c = '\\' then
      match rest with
      | [] => none
      | e :: rest' =>
        if e = '"' ∨ e = '\\' then (unescapeMessage rest').map (e :: ·)
        else if e = 'n' then (unescapeMessage rest').map ('\n' :: ·)
        else if e = 'r' then (unescapeMessage rest').map ('\r' :: ·)
        else if e = 't' then (unescapeMessage rest').map ('\t' :: ·)
        else none
    else (unescapeMessage rest).map (c :: ·)

/-- Runtime state of one `Logger` (`src/log.go` lines 48-58) together
with the observable effects the claims talk about.  `output` is the
contents of the buffered channel (front = oldest pending record);
`msgPoolFree` counts free records sitting in the message pool (a
`sync.Pool` `Get` on an empty pool allocates a fresh record, so the
count saturates at 0); `msgPoolGets` / `msgPoolPuts` count the
cumulative pool operations performed; `stdlog` is the standard-library
`log` side channel used for the drop notice; `outputClosed` records
whether `close(logger.output)` has run. -/
structure LoggerState where
  module : String
  id : String
  Level : Int
  output : List LogMsg
  msgPoolFree : Nat
  msgPoolGets : Nat
  msgPoolPuts : Nat
  stdlog : List String
  outputClosed : Bool
deriving DecidableEq, Repr

/-- Capacity of the buffered output channel,
`make(chan *LogMsg, 1024)` in `Init` (`src/log.go` line 161). -/
def outputCapacity : Nat := 1024

/-- The diagnostic printed on the standard-library logger when the
channel is full, `src/log.go` line 152. -/
def dropNotice : String := "liblog: channel is full. Log message dropped."

/-- `Logger.log`, `src/log.go` lines 134-154.  The caller's level is
checked against the logger's minimum before anything else; on pass, a
record is taken from the message pool, populated (the `runtime.Caller`
result enters as the `srcFile`/`srcLine` parameters, already passed
through `filepath.Base`), and submitted with a non-blocking select: if
the buffered channel has free capacity the record is enqueued, otherwise
it is dropped, returned to the pool, and a notice goes to the
standard-library logger.  The Go function has no return value, so the
embedding returns only the successor state. -/
def log (st : LoggerState) (level : Int) (format : String)
    (srcFile : String) (srcLine : Int) : LoggerState :=
  if level < st.Level then st
  else
    let st1 := { st with msgPoolGets := st.msgPoolGets + 1,
                         msgPoolFree := st.msgPoolFree - 1 }
    let msg : LogMsg := { Level := level, format := format,
                          SrcFile := srcFile, SrcLine := srcLine }
    if st1.output.length < outputCapacity then
      { st1 with output := st1.output ++ [msg] }
    else
      { st1 with msgPoolFree := st1.msgPoolFree + 1,
                 msgPoolPuts := st1.msgPoolPuts + 1,
                 stdlog := st1.stdlog ++ [dropNotice] }

/-- `Logger.Debug`, `src/log.go` lines 196-198. -/
def Debug (st : LoggerState) (format : String) (srcFile : String) (srcLine : Int) : LoggerState :=
  log st DebugLevel format srcFile srcLine

/-- `Logger.Info`, `src/log.go` lines 200-202. -/
def Info (st : LoggerState) (format : String) (srcFile : String) (srcLine : Int) : LoggerState :=
  log st InfoLevel format srcFile srcLine

/-- `Logger.Warning`, `src/log.go` lines 204-206. -/
def Warning (st : LoggerState) (format : String) (srcFile : String) (srcLine : Int) : LoggerState :=
  log st WarningLevel format srcFile srcLine

/-- `Logger.Error`, `src/log.go` lines 208-210. -/
def Error (st : LoggerState) (format : String) (srcFile : String) (srcLine : Int) : LoggerState :=
  log st ErrorLevel format srcFile srcLine

/-- `LogWriter.Write`, `src/log.go` lines 226-230: the byte-stream
adapter turns the byte slice into a string, hands it to `log` at the
writer's fixed level, and returns `(len(p), nil)` unconditionally.  The
result triple is the successor state, the returned count `n`, and the
returned error. -/
def LogWriterWrite (host : LoggerState) (level : Int) (p : List Char) :
    LoggerState × Nat × Option String :=
  (log host level (String.mk p) "" 0, p.length, none)

/-- `Logger.Stop`, `src/log.go` lines 212-214: `close(logger.output)`.
Closing an already-closed Go channel panics, which the embedding
represents as `Except.error` carrying the Go runtime's panic message. -/
def Stop (st : LoggerState) : Except String LoggerState :=
  if st.outputClosed then Except.error "close of closed channel"
  else Except.ok { st with outputClosed := true }

/-- `Logger.StopSync`, `src/log.go` lines 216-219: close the channel and
wait for the worker (`wg.Wait()`).  The wait always terminates once the
channel is closed (the worker's `for range` exits), so state-wise the
model coincides with `Stop`; the panic on a second close is the same. -/
def StopSync (st : LoggerState) : Except String LoggerState :=
  if st.outputClosed then Except.error "close of closed channel"
  else Except.ok { st with outputClosed := true }

/-- Package-level `Debug`, `src/log.go` lines 278-282: a guarded call on
the process-wide singleton, a no-op when the singleton is unset. -/
def singleDebug : Option LoggerState → String → String → Int → Option LoggerState
  | none, _, _, _ => none
  | some st, format, srcFile, srcLine => some (log st DebugLevel format srcFile srcLine)

/-- Package-level `Info`, `src/log.go` lines 284-288. -/
def singleInfo : Option LoggerState → String → String → Int → Option LoggerState
  | none, _, _, _ => none
  | some st, format, srcFile, srcLine => some (log st InfoLevel format srcFile srcLine)

/-- Package-level `Warning`, `src/log.go` lines 290-294. -/
def singleWarning : Option LoggerState → String → String → Int → Option LoggerState
  | none, _, _, _ => none
  | some st, format, srcFile, srcLine => some (log st WarningLevel format srcFile srcLine)

/-- Package-level `Error`, `src/log.go` lines 296-300. -/
def singleError : Option LoggerState → String → String → Int → Option LoggerState
  | none, _, _, _ => none
  | some st, format, srcFile, srcLine => some (log st ErrorLevel format srcFile srcLine)

/-- `StopSingle`, `src/log.go` lines 302-307: stop the singleton if set,
then clear the reference. -/
def StopSingle : Option LoggerState → Except String (Option LoggerState)
  | none => Except.ok none
  | some st => (Stop st).map fun _ => none

/-- The singleton reference left behind by `StopSingle`, with a panic
collapsing to the pre-panic `none` observation being irrelevant: the
function extracts the resulting reference when `StopSingle` returns
normally and `none` otherwise. -/
def StopSingleResult (g : Option LoggerState) : Option LoggerState :=
  match StopSingle g with
  | Except.ok r => r
  | Except.error _ => none

/-- `LOGLEVEL` interpretation in `Init`, `src/log.go` lines 178-188: the
Go `switch` with cases `"ERROR","3"`, `"WARNING","2"`, `"DEBUG","0"` and
default `InfoLevel` (an absent variable reads as `""`). -/
def parseLogLevel (level : String) : Int :=
  if level = "ERROR" ∨ level = "3" then ErrorLevel
  else if level = "WARNING" ∨ level = "2" then WarningLevel
  else if level = "DEBUG" ∨ level = "0" then DebugLevel
  else InfoLevel

/-- `LOGLEVEL` interpretation in the v0.11 revision's `Init`
(`src/unnamed/part_000` lines 119-139), which also lists `"INFO"` and
`"1"` explicitly before the same `InfoLevel` default. -/
def parseLogLevelV11 (level : String) : Int :=
  if level = "ERROR" ∨ level = "3" then ErrorLevel
  else if level = "WARNING" ∨ level = "2" then WarningLevel
  else if level = "INFO" ∨ level = "1" then InfoLevel
  else if level = "DEBUG" ∨ level = "0" then DebugLevel
  else InfoLevel

/-- The successive `WriteString` arguments of `Logger.writeMessage`
(`src/log.go` lines 80-124) once the level filter has passed: the fixed
field openers interleaved with the timestamp (`time.Now` enters as the
`ts` parameter), the level name, the escaped formatted text (the
`fmt.Fprintf` result enters as the `formatted` parameter), the module,
the optional `service_id` pair when `logger.id` is nonempty, the
optional `src_file`/`src_line` group when `msg.SrcFile` is nonempty, and
the closing brace plus newline.  The rendered line is the concatenation
of these pieces. -/
def writeMessagePieces (logger : LoggerState) (msg : LogMsg)
    (ts : String) (formatted : List Char) : List String :=
  ["\x7b\"timestamp\":\"", ts,
   "\",\"level\":\"", levelString msg.Level,
   "\",\"message\":\"", String.mk (escapeMessage formatted),
   "\",\"service\":\"", logger.module]
  ++ (if logger.id ≠ "" then ["\",\"service_id\":\"", logger.id] else [])
  ++ (if msg.SrcFile ≠ "" then
        ["\",\"src_file\":\"", msg.SrcFile, "\",\"src_line\":", toString msg.SrcLine]
      else [])
  ++ ["\x7d\n"]

/-- `Logger.writeMessage` (`src/log.go` lines 72-132) as the list of
lines it contributes to each sink: empty when the record's level is
below the logger's current minimum (the re-check at dequeue time, lines
73-75), otherwise the single rendered line. -/
def writeMessage (logger : LoggerState) (msg : LogMsg)
    (ts : String) (formatted : List Char) : List String :=
  if msg.Level < logger.Level then []
  else [String.join (writeMessagePieces logger msg ts formatted)]

/-- Measurement helper for the wire format: maps each field-opening
piece written by `writeMessage` to the JSON key it introduces, and
everything else (field values, the closing brace) to `none`. -/
def keyOfPiece (p : String) : Option String :=
  if p = "\x7b\"timestamp\":\"" then some "timestamp"
  else if p = "\",\"level\":\"" then some "level"
  else if p = "\",\"message\":\"" then some "message"
  else if p = "\",\"service\":\"" then some "service"
  else if p = "\",\"service_id\":\"" then some "service_id"
  else if p = "\",\"src_file\":\"" then some "src_file"
  else if p = "\",\"src_line\":" then some "src_line"
  else none

/-- The JSON keys of one rendered line, in emission order: the field
openers among the written pieces. -/
def lineKeys (logger : LoggerState) (msg : LogMsg)
    (ts : String) (formatted : List Char) : List String :=
  (writeMessagePieces logger msg ts formatted).filterMap keyOfPiece

/-- The canonical key order of the wire format. -/
def allKeys : List String :=
  ["timestamp", "level", "message", "service", "service_id", "src_file", "src_line"]

/-- The inner loop of the v0.11 `printMessage`
(`src/unnamed/part_000` lines 66-75), walking the newline occurrences of
the remaining text in order: `pos` is the absolute offset of the head of
the suffix still to scan, `best` the last newline offset accepted so
far.  A newline at offset within `bound` is recorded and the scan
continues past it; the first newline beyond `bound` stops the scan. -/
def lastNewlineAtMostAux : List Char → Nat → Nat → Option Nat → Option Nat
  | [], _, _, best => best
  | c :: rest, bound, pos, best =>
    if c = '\n' then
      if pos ≤ bound then lastNewlineAtMostAux rest bound (pos + 1) (some pos)
      else best
    else lastNewlineAtMostAux rest bound (pos + 1) best

/-- The `index` computed by the v0.11 `printMessage` before each cut: the
offset of the last newline at or before `bound`, or `none` when no
newline occurs in that window (Go's `-1`). -/
def lastNewlineAtMost (text : List Char) (bound : Nat) : Option Nat :=
  lastNewlineAtMostAux text bound 0 none

/-- One carving step of the v0.11 `printMessage`
(`src/unnamed/part_000` lines 76-83): the emitted prefix and the
remaining text.  With no newline in the window the cut is at exactly the
threshold; at a newline the prefix stops before it and the remainder
starts just past it. -/
def splitStep (msgLen : Nat) (text : List Char) : List Char × List Char :=
  match lastNewlineAtMost text msgLen with
  | none => (text.take msgLen, text.drop msgLen)
  | some index => (text.take index, text.drop (index + 1))

/-- The carving loop of `printMessage` (`src/unnamed/part_000` lines
65-91), fuelled for structural recursion: while the text is longer than
the threshold, carve one prefix and continue on the remainder; the final
remainder is emitted as the last chunk.  `splitMessage` supplies enough
fuel (each step strictly shortens the text when the threshold is
positive, as `Init` guarantees by replacing a zero `LOG_MSG_LEN` with
the 8000 default). -/
def splitMessageFuel : Nat → Nat → List Char → List (List Char)
  | 0, _, text => [text]
  | fuel + 1, msgLen, text =>
    if msgLen < text.length then
      (splitStep msgLen text).1 :: splitMessageFuel fuel msgLen (splitStep msgLen text).2
    else [text]

/-- The chunks of raw message text emitted by the v0.11 `printMessage`
for one record, in order: one chunk per printed JSON object. -/
def splitMessage (msgLen : Nat) (text : List Char) : List (List Char) :=
  splitMessageFuel text.length msgLen text

/-- The v0.11 `printMessage` (`src/unnamed/part_000` lines 60-97) as the
lines printed for one record: nothing when the record's level is below
the logger's minimum, otherwise one marshalled JSON object per carved
chunk.  `encoding/json.Marshal` is an external collaborator and enters
as the `marshal` parameter applied to each chunk's message text. -/
def printMessage (marshal : List Char → String) (loggerLevel : Int)
    (msgLevel : Int) (msgLen : Nat) (message : List Char) : List String :=
  if msgLevel < loggerLevel then []
  else (splitMessage msgLen message).map marshal

/-- The default split threshold, `var MaxMsgLength int = 8000`
(`src/unnamed/part_000` line 24). -/
def MaxMsgLength : Nat := 8000

/-- A concrete record used to instantiate the theorems below. -/
def exampleMsg : LogMsg :=
  { Level := InfoLevel, format := "x", SrcFile := "f.go", SrcLine := 1 }

/-- A freshly initialised logger at the default `InfoLevel` threshold. -/
def exampleLogger : LoggerState :=
  { module := "svc", id := "", Level := InfoLevel, output := [],
    msgPoolFree := 0, msgPoolGets := 0, msgPoolPuts := 0,
    stdlog := [], outputClosed := false }

/-- The same logger with its output channel at full capacity. -/
def exampleFullLogger : LoggerState :=
  { exampleLogger with output := List.replicate outputCapacity exampleMsg }

end Liblog

namespace Liblog

/-- C5: an emit call at a level strictly below the logger's minimum
threshold short-circuits with no side effect: `log` returns the state
unchanged — nothing is enqueued, no pool acquisition is performed (the
level check at `src/log.go` lines 135-137 precedes `msgPool.Get`), no
notice is emitted — and the worker-side re-check in `writeMessage`
(`src/log.go` lines 73-75) likewise produces zero output lines for a
record below the threshold. -/
theorem log_belowLevel_noop :
    (∀ (st : LoggerState) (level : Int) (format srcFile : String) (srcLine : Int),
        level < st.Level → log st level format srcFile srcLine = st) ∧
    (∀ (logger : LoggerState) (msg : LogMsg) (ts : String) (formatted : List Char),
        msg.Level < logger.Level → writeMessage logger msg ts formatted = []) := by
  constructor
  · intro st level format srcFile srcLine h
    simp [log, h]
  · intro logger msg ts formatted h
    simp [writeMessage, h]

/-- Witness for `log_belowLevel_noop`: a `DebugLevel` call against the
default `InfoLevel` threshold leaves the logger untouched and renders
nothing. -/
theorem log_belowLevel_noop_witness :
    log exampleLogger DebugLevel "x" "f.go" 1 = exampleLogger ∧
    writeMessage exampleLogger
      { Level := DebugLevel, format := "x", SrcFile := "f.go", SrcLine := 1 } "T" [] = [] :=
  ⟨log_belowLevel_noop.1 exampleLogger DebugLevel "x" "f.go" 1 (by decide),
   log_belowLevel_noop.2 exampleLogger
     { Level := DebugLevel, format := "x", SrcFile := "f.go", SrcLine := 1 } "T" [] (by decide)⟩

/-- C1: a submission that passes the level filter while the output
channel already holds `outputCapacity` pending records is dropped
without blocking: the queue is unchanged, the freshly acquired record is
put back into the message pool (one `Get` and one matching `Put`, the
free count not decreasing), and the "message dropped" notice goes to the
standard-library log side channel, not to the pipeline.  `log` has no
error return in the source, so the call completes returning only the
successor state. -/
theorem log_queueFull_drops :
    ∀ (st : LoggerState) (level : Int) (format srcFile : String) (srcLine : Int),
      st.output.length = outputCapacity → st.Level ≤ level →
      (log st level format srcFile srcLine).output = st.output ∧
      (log st level format srcFile srcLine).stdlog = st.stdlog ++ [dropNotice] ∧
      (log st level format srcFile srcLine).msgPoolGets = st.msgPoolGets + 1 ∧
      (log st level format srcFile srcLine).msgPoolPuts = st.msgPoolPuts + 1 ∧
      st.msgPoolFree ≤ (log st level format srcFile srcLine).msgPoolFree := by
  intro st level format srcFile srcLine hfull hlev
  have h1 : ¬ level < st.Level := not_lt.mpr hlev
  refine ⟨?_, ?_, ?_, ?_, ?_⟩ <;> (simp [log, h1, hfull]; try omega)

/-- Witness for `log_queueFull_drops`: an `ErrorLevel` submission to a
logger whose channel holds 1024 pending records. -/
theorem log_queueFull_drops_witness :
    (log exampleFullLogger ErrorLevel "x" "f.go" 1).output = exampleFullLogger.output ∧
    (log exampleFullLogger ErrorLevel "x" "f.go" 1).stdlog =
      exampleFullLogger.stdlog ++ [dropNotice] ∧
    (log exampleFullLogger ErrorLevel "x" "f.go" 1).msgPoolGets =
      exampleFullLogger.msgPoolGets + 1 ∧
    (log exampleFullLogger ErrorLevel "x" "f.go" 1).msgPoolPuts =
      exampleFullLogger.msgPoolPuts + 1 ∧
    exampleFullLogger.msgPoolFree ≤ (log exampleFullLogger ErrorLevel "x" "f.go" 1).msgPoolFree :=
  log_queueFull_drops exampleFullLogger ErrorLevel "x" "f.go" 1
    (by simp [exampleFullLogger, exampleLogger]) (by decide)

/-- C10: the byte-stream adapter's `Write` always reports the full
length of the submitted slice and a `nil` error, whatever the host
logger's state (filtering, enqueueing and dropping only affect the
successor state, never the return values). -/
theorem LogWriterWrite_len_nil :
    ∀ (host : LoggerState) (level : Int) (p : List Char),
      (LogWriterWrite host level p).2.1 = p.length ∧
      (LogWriterWrite host level p).2.2 = none := by
  intro host level p
  exact ⟨rfl, rfl⟩

/-- C9: with the process-wide singleton unset, every package-level emit
call is a no-op returning the unset reference (no panic is possible: the
`nil` guard precedes the method call), and `StopSingle` always leaves
the singleton reference cleared when it returns normally. -/
theorem singleton_unset_noop :
    ∀ (format srcFile : String) (srcLine : Int),
      singleDebug none format srcFile srcLine = none ∧
      singleInfo none format srcFile srcLine = none ∧
      singleWarning none format srcFile srcLine = none ∧
      singleError none format srcFile srcLine = none ∧
      ∀ g : Option LoggerState, StopSingleResult g = none := by
  intro format srcFile srcLine
  refine ⟨rfl, rfl, rfl, rfl, ?_⟩
  intro g
  cases g with
  | none => rfl
  | some st =>
    by_cases h : st.outputClosed <;>
      simp [StopSingleResult, StopSingle, Stop, Except.map, h]

/-- C6 evaluation: stopping the same logger twice panics.  The second
`close(logger.output)` in `Stop` (and equally in `StopSync`) closes an
already-closed channel, which the Go runtime reports as the
`close of closed channel` panic; the model evaluates both double-stop
sequences on a fresh logger to exactly that panic. -/
theorem stop_twice_panics :
    (Stop exampleLogger).bind Stop = Except.error "close of closed channel" ∧
    (StopSync exampleLogger).bind StopSync = Except.error "close of closed channel" := by
  exact ⟨rfl, rfl⟩

/-- C8: the `LOGLEVEL` switch in `Init` maps each documented level name
and numeric code to the corresponding minimum level and everything else
— including the empty string read for an absent variable — to
`InfoLevel`; the names `INFO` and `1` reach `InfoLevel` through the
default branch in the current revision and through explicit cases in the
v0.11 revision, with the same result. -/
theorem parseLogLevel_cases :
    (parseLogLevel "DEBUG" = DebugLevel ∧ parseLogLevel "INFO" = InfoLevel ∧
      parseLogLevel "WARNING" = WarningLevel ∧ parseLogLevel "ERROR" = ErrorLevel ∧
      parseLogLevel "0" = DebugLevel ∧ parseLogLevel "1" = InfoLevel ∧
      parseLogLevel "2" = WarningLevel ∧ parseLogLevel "3" = ErrorLevel ∧
      parseLogLevel "" = InfoLevel) ∧
    (parseLogLevelV11 "DEBUG" = DebugLevel ∧ parseLogLevelV11 "INFO" = InfoLevel ∧
      parseLogLevelV11 "WARNING" = WarningLevel ∧ parseLogLevelV11 "ERROR" = ErrorLevel ∧
      parseLogLevelV11 "0" = DebugLevel ∧ parseLogLevelV11 "1" = InfoLevel ∧
      parseLogLevelV11 "2" = WarningLevel ∧ parseLogLevelV11 "3" = ErrorLevel ∧
      parseLogLevelV11 "" = InfoLevel) ∧
    ∀ s : String, s ≠ "ERROR" → s ≠ "3" → s ≠ "WARNING" → s ≠ "2" →
      s ≠ "DEBUG" → s ≠ "0" →
      parseLogLevel s = InfoLevel ∧
      (s ≠ "INFO" → s ≠ "1" → parseLogLevelV11 s = InfoLevel) := by
  refine ⟨by decide, by decide, ?_⟩
  intro s h1 h2 h3 h4 h5 h6
  constructor
  · simp [parseLogLevel, h1, h2, h3, h4, h5, h6]
  · intro h7 h8
    simp [parseLogLevelV11, h1, h2, h3, h4, h5, h6, h7, h8]

/-- C4: the escaping loop of `writeMessage` backslash-escapes backslash
and double quote, turns newline / carriage return / tab into `\n` / `\r`
/ `\t`, passes every other character through unchanged, and
JSON-unescaping its output reconstructs the input exactly; the escaped
text is precisely what `writeMessage` places in the `message` field
(piece index 5 of the rendered line). -/
theorem escapeMessage_roundTrip :
    (∀ s : List Char, unescapeMessage (escapeMessage s) = some s) ∧
    escapeChar '"' = ['\\', '"'] ∧
    escapeChar '\\' = ['\\', '\\'] ∧
    escapeChar '\n' = ['\\', 'n'] ∧
    escapeChar '\r' = ['\\', 'r'] ∧
    escapeChar '\t' = ['\\', 't'] ∧
    (∀ c : Char, c ≠ '"' → c ≠ '\\' → c ≠ '\n' → c ≠ '\r' → c ≠ '\t' →
      escapeChar c = [c]) ∧
    (∀ (logger : LoggerState) (msg : LogMsg) (ts : String) (formatted : List Char),
      (writeMessagePieces logger msg ts formatted)[5]? =
        some (String.mk (escapeMessage formatted))) := by
  refine ⟨?_, by decide, by decide, by decide, by decide, by decide, ?_, ?_⟩
  · intro s
    induction s with
    | nil => rfl
    | cons c rest ih =>
      by_cases h1 : c = '"'
      · subst h1; simp [escapeMessage, escapeChar, unescapeMessage, ih]
      · by_cases h2 : c = '\\'
        · subst h2; simp [escapeMessage, escapeChar, unescapeMessage, ih]
        · by_cases h3 : c = '\n'
          · subst h3; simp [escapeMessage, escapeChar, unescapeMessage, ih]
          · by_cases h4 : c = '\r'
            · subst h4; simp [escapeMessage, escapeChar, unescapeMessage, ih]
            · by_cases h5 : c = '\t'
              · subst h5; simp [escapeMessage, escapeChar, unescapeMessage, ih]
              · simp only [escapeMessage]
                rw [show escapeChar c = [c] by simp [escapeChar, h1, h2, h3, h4, h5]]
                simp only [List.cons_append, List.nil_append]
                rw [unescapeMessage.eq_def]
                simp [h2, ih]
  · intro c h1 h2 h3 h4 h5
    simp [escapeChar, h1, h2, h3, h4, h5]
  · intro logger msg ts formatted
    rfl

/-- Witness for `escapeMessage_roundTrip`: a text containing all five
special characters survives the round trip, and an ordinary letter is
passed through unescaped. -/
theorem escapeMessage_roundTrip_witness :
    unescapeMessage (escapeMessage ['a', '"', '\\', '\n', '\r', '\t', 'z']) =
      some ['a', '"', '\\', '\n', '\r', '\t', 'z'] ∧
    escapeChar 'z' = ['z'] :=
  ⟨escapeMessage_roundTrip.1 ['a', '"', '\\', '\n', '\r', '\t', 'z'],
   escapeMessage_roundTrip.2.2.2.2.2.2.1 'z' (by decide) (by decide) (by decide)
     (by decide) (by decide)⟩

/-- The key sequence of one rendered line, computed from the emitted
pieces: the four unconditional openers, then `service_id` exactly when
the logger's id is nonempty, then the `src_file`/`src_line` pair exactly
when the record carries a source file.  The hypotheses say that none of
the dynamic values written between the openers collides with an opener
string, so the measurement `keyOfPiece` sees only the real field
openers. -/
theorem lineKeys_eq (logger : LoggerState) (msg : LogMsg) (ts : String) (formatted : List Char)
    (h1 : keyOfPiece ts = none) (h2 : keyOfPiece (levelString msg.Level) = none)
    (h3 : keyOfPiece (String.mk (escapeMessage formatted)) = none)
    (h4 : keyOfPiece logger.module = none) (h5 : keyOfPiece logger.id = none)
    (h6 : keyOfPiece msg.SrcFile = none) (h7 : keyOfPiece (toString msg.SrcLine) = none) :
    lineKeys logger msg ts formatted =
      ["timestamp", "level", "message", "service"]
      ++ (if logger.id ≠ "" then ["service_id"] else [])
      ++ (if msg.SrcFile ≠ "" then ["src_file", "src_line"] else []) := by
  have k1 : keyOfPiece "\x7b\"timestamp\":\"" = some "timestamp" := by decide
  have k2 : keyOfPiece "\",\"level\":\"" = some "level" := by decide
  have k3 : keyOfPiece "\",\"message\":\"" = some "message" := by decide
  have k4 : keyOfPiece "\",\"service\":\"" = some "service" := by decide
  have k5 : keyOfPiece "\",\"service_id\":\"" = some "service_id" := by decide
  have k6 : keyOfPiece "\",\"src_file\":\"" = some "src_file" := by decide
  have k7 : keyOfPiece "\",\"src_line\":" = some "src_line" := by decide
  have k8 : keyOfPiece "\x7d\n" = none := by decide
  unfold lineKeys writeMessagePieces
  by_cases hid : logger.id = "" <;> by_cases hsf : msg.SrcFile = "" <;>
    simp [hid, hsf, List.filterMap_append, List.filterMap_cons,
      h1, h2, h3, h4, h5, h6, h7, k1, k2, k3, k4, k5, k6, k7, k8]

/-- C7: each rendered line's keys form a subsequence of the fixed order
`timestamp, level, message, service, service_id, src_file, src_line`;
the first four are always present, `service_id` appears exactly when the
logger id is nonempty, `src_file` and `src_line` appear together exactly
when the record's source file is nonempty, and `writeMessage`
contributes at most one line per record.  The hypotheses rule out field
values that textually equal an opener string (unescaped values such as
the module name are written verbatim, so such a collision would inject
field text into the line). -/
theorem writeMessage_keyOrder :
    ∀ (logger : LoggerState) (msg : LogMsg) (ts : String) (formatted : List Char),
      keyOfPiece ts = none → keyOfPiece (levelString msg.Level) = none →
      keyOfPiece (String.mk (escapeMessage formatted)) = none →
      keyOfPiece logger.module = none → keyOfPiece logger.id = none →
      keyOfPiece msg.SrcFile = none → keyOfPiece (toString msg.SrcLine) = none →
      List.Sublist (lineKeys logger msg ts formatted) allKeys ∧
      "timestamp" ∈ lineKeys logger msg ts formatted ∧
      "level" ∈ lineKeys logger msg ts formatted ∧
      "message" ∈ lineKeys logger msg ts formatted ∧
      "service" ∈ lineKeys logger msg ts formatted ∧
      ("service_id" ∈ lineKeys logger msg ts formatted ↔ logger.id ≠ "") ∧
      ("src_file" ∈ lineKeys logger msg ts formatted ↔ msg.SrcFile ≠ "") ∧
      ("src_line" ∈ lineKeys logger msg ts formatted ↔ msg.SrcFile ≠ "") ∧
      (writeMessage logger msg ts formatted).length ≤ 1 := by
  intro logger msg ts formatted h1 h2 h3 h4 h5 h6 h7
  rw [lineKeys_eq logger msg ts formatted h1 h2 h3 h4 h5 h6 h7]
  have hlen : (writeMessage logger msg ts formatted).length ≤ 1 := by
    unfold writeMessage; split <;> simp
  by_cases hid : logger.id = "" <;> by_cases hsf : msg.SrcFile = "" <;>
    refine ⟨?_, ?_, ?_, ?_, ?_, ?_, ?_, ?_, hlen⟩ <;>
    simp_all [allKeys]

/-- Witness for `writeMessage_keyOrder`: a logger with empty id and a
record with a captured source file yields the keys
`timestamp, level, message, service, src_file, src_line`. -/
theorem writeMessage_keyOrder_witness :
    List.Sublist (lineKeys exampleLogger exampleMsg "T" ['h', 'i']) allKeys ∧
    "timestamp" ∈ lineKeys exampleLogger exampleMsg "T" ['h', 'i'] ∧
    "level" ∈ lineKeys exampleLogger exampleMsg "T" ['h', 'i'] ∧
    "message" ∈ lineKeys exampleLogger exampleMsg "T" ['h', 'i'] ∧
    "service" ∈ lineKeys exampleLogger exampleMsg "T" ['h', 'i'] ∧
    ("service_id" ∈ lineKeys exampleLogger exampleMsg "T" ['h', 'i'] ↔
      exampleLogger.id ≠ "") ∧
    ("src_file" ∈ lineKeys exampleLogger exampleMsg "T" ['h', 'i'] ↔
      exampleMsg.SrcFile ≠ "") ∧
    ("src_line" ∈ lineKeys exampleLogger exampleMsg "T" ['h', 'i'] ↔
      exampleMsg.SrcFile ≠ "") ∧
    (writeMessage exampleLogger exampleMsg "T" ['h', 'i']).length ≤ 1 :=
  writeMessage_keyOrder exampleLogger exampleMsg "T" ['h', 'i'] (by decide) (by decide)
    (by decide) (by decide) (by decide) (by decide) (by decide)

/-- Witness for `parseLogLevel_cases`: the unrecognised value
`"verbose"` falls to `InfoLevel` in both revisions. -/
theorem parseLogLevel_cases_witness :
    parseLogLevel "verbose" = InfoLevel ∧ parseLogLevelV11 "verbose" = InfoLevel := by
  obtain ⟨ha, hb⟩ := parseLogLevel_cases.2.2 "verbose" (by decide) (by decide) (by decide)
    (by decide) (by decide) (by decide)
  exact ⟨ha, hb (by decide) (by decide)⟩

end Liblog

namespace Liblog

/-- When the suffix being scanned has no newline inside the window, the
scan returns the accumulated candidate unchanged. -/
theorem lastNewlineAtMostAux_no_newline :
    ∀ (text : List Char) (bound pos : Nat) (best : Option Nat),
      (∀ i, i < text.length → pos + i ≤ bound → text[i]? ≠ some '\n') →
      lastNewlineAtMostAux text bound pos best = best := by
  intro text
  induction text with
  | nil => intro bound pos best _; rfl
  | cons c rest ih =>
    intro bound pos best h
    by_cases hc : c = '\n'
    · subst hc
      have hpos : ¬ pos ≤ bound := fun hle =>
        h 0 (by simp) (by simpa using hle) (by simp)
      simp [lastNewlineAtMostAux, hpos]
    · simp only [lastNewlineAtMostAux, if_neg hc]
      exact ih bound (pos + 1) best fun i hi hb => by
        have := h (i + 1) (by simpa using Nat.succ_lt_succ hi) (by omega)
        simpa using this

/-- When offset `j` of the scanned suffix holds a newline inside the
window and no later in-window offset does, the scan returns the absolute
position `pos + j`, whatever candidate was accumulated before. -/
theorem lastNewlineAtMostAux_found :
    ∀ (text : List Char) (bound pos j : Nat) (best : Option Nat),
      j < text.length → pos + j ≤ bound → text[j]? = some '\n' →
      (∀ i, j < i → i < text.length → pos + i ≤ bound → text[i]? ≠ some '\n') →
      lastNewlineAtMostAux text bound pos best = some (pos + j) := by
  intro text
  induction text with
  | nil => intro bound pos j best hj; simp at hj
  | cons c rest ih =>
    intro bound pos j best hj hb hget hlast
    cases j with
    | zero =>
      have hc : c = '\n' := by simpa using hget
      subst hc
      have hpos : pos ≤ bound := by omega
      simp only [lastNewlineAtMostAux, if_pos rfl, if_pos hpos]
      rw [lastNewlineAtMostAux_no_newline rest bound (pos + 1) (some pos) ?_]
      · simp
      · intro i hi hbnd
        have := hlast (i + 1) (Nat.succ_pos i) (by simpa using Nat.succ_lt_succ hi) (by omega)
        simpa using this
    | succ k =>
      have hget' : rest[k]? = some '\n' := by simpa using hget
      have hk : k < rest.length := by simpa using hj
      have hlast' : ∀ i, k < i → i < rest.length → pos + 1 + i ≤ bound →
          rest[i]? ≠ some '\n' := by
        intro i h1 h2 h3
        have := hlast (i + 1) (by omega) (by simpa using Nat.succ_lt_succ h2) (by omega)
        simpa using this
      by_cases hc : c = '\n'
      · subst hc
        have hpos : pos ≤ bound := by omega
        simp only [lastNewlineAtMostAux, if_pos rfl, if_pos hpos]
        rw [show pos + (k + 1) = pos + 1 + k by omega]
        exact ih bound (pos + 1) k (some pos) hk (by omega) hget' hlast' 
      · simp only [lastNewlineAtMostAux, if_neg hc]
        rw [show pos + (k + 1) = pos + 1 + k by omega]
        exact ih bound (pos + 1) k best hk (by omega) hget' hlast' 

/-- The `index` of the carving loop is Go's `-1` exactly when no offset
within the window carries a newline. -/
theorem lastNewlineAtMost_eq_none (text : List Char) (bound : Nat)
    (h : ∀ p, p ≤ bound → text[p]? ≠ some '\n') :
    lastNewlineAtMost text bound = none :=
  lastNewlineAtMostAux_no_newline text bound 0 none fun i _ hb => h i (by omega)

/-- The `index` of the carving loop is the largest in-window newline
offset when one exists. -/
theorem lastNewlineAtMost_eq_some (text : List Char) (bound p : Nat)
    (hp : p ≤ bound) (hget : text[p]? = some '\n')
    (hlast : ∀ q, p < q → q ≤ bound → text[q]? ≠ some '\n') :
    lastNewlineAtMost text bound = some p := by
  have hlen : p < text.length := by
    by_contra hcon
    rw [List.getElem?_eq_none (by omega)] at hget
    simp at hget
  have := lastNewlineAtMostAux_found text bound 0 p none hlen (by omega) hget
    (fun i h1 h2 h3 => hlast i (by omega) (by omega))
  simpa using this

/-- A text without newlines yields no cut index for any window. -/
theorem lastNewlineAtMost_of_not_mem (text : List Char) (bound : Nat)
    (h : '\n' ∉ text) : lastNewlineAtMost text bound = none :=
  lastNewlineAtMost_eq_none text bound fun _ _ hsome => h (List.getElem?_mem hsome)

/-- Each carving step strictly shortens the remaining text once the
threshold is positive and the text exceeds it. -/
theorem splitStep_snd_lt (msgLen : Nat) (text : List Char)
    (hm : 0 < msgLen) (hcut : msgLen < text.length) :
    (splitStep msgLen text).2.length < text.length := by
  unfold splitStep
  split
  all_goals simp [List.length_drop]
  all_goals omega

end Liblog

namespace Liblog

/-- The fuelled carving loop does not depend on the fuel as soon as the
fuel covers the text length. -/
theorem splitMessageFuel_congr :
    ∀ (n msgLen : Nat), 0 < msgLen →
      ∀ (text : List Char) (f₁ f₂ : Nat), text.length ≤ n →
        text.length ≤ f₁ → text.length ≤ f₂ →
        splitMessageFuel f₁ msgLen text = splitMessageFuel f₂ msgLen text := by
  intro n msgLen hm
  induction n with
  | zero =>
    intro text f₁ f₂ hn h1 h2
    have hnot : ¬ msgLen < text.length := by omega
    cases f₁ <;> cases f₂ <;> simp [splitMessageFuel, hnot]
  | succ n ih =>
    intro text f₁ f₂ hn h1 h2
    by_cases hcut : msgLen < text.length
    · cases f₁ with
      | zero => omega
      | succ a =>
        cases f₂ with
        | zero => omega
        | succ b =>
          simp only [splitMessageFuel, if_pos hcut]
          have hrest := splitStep_snd_lt msgLen text hm hcut
          rw [ih (splitStep msgLen text).2 a b (by omega) (by omega) (by omega)]
    · cases f₁ <;> cases f₂ <;> simp [splitMessageFuel, hcut]

/-- Unfolding of the carving loop: text longer than the threshold is one
carved prefix followed by the chunks of the remainder. -/
theorem splitMessage_cons (msgLen : Nat) (text : List Char)
    (hm : 0 < msgLen) (hcut : msgLen < text.length) :
    splitMessage msgLen text =
      (splitStep msgLen text).1 :: splitMessage msgLen (splitStep msgLen text).2 := by
  have hrest := splitStep_snd_lt msgLen text hm hcut
  obtain ⟨k, hk⟩ : ∃ k, text.length = k + 1 := ⟨text.length - 1, by omega⟩
  unfold splitMessage
  rw [hk]
  simp only [splitMessageFuel, if_pos hcut]
  congr 1
  exact splitMessageFuel_congr (splitStep msgLen text).2.length msgLen hm
    (splitStep msgLen text).2 k (splitStep msgLen text).2.length le_rfl (by omega) le_rfl

/-- The carving loop always emits at least one chunk. -/
theorem splitMessageFuel_ne_nil (f msgLen : Nat) (text : List Char) :
    splitMessageFuel f msgLen text ≠ [] := by
  cases f with
  | zero => simp [splitMessageFuel]
  | succ a =>
    simp only [splitMessageFuel]
    split <;> simp

/-- `printMessage` always prints at least one object per record that
passes the level filter. -/
theorem splitMessage_ne_nil (msgLen : Nat) (text : List Char) :
    splitMessage msgLen text ≠ [] :=
  splitMessageFuel_ne_nil _ _ _

/-- Induction core for the no-newline splitting claim: for nonempty
newline-free text, the carving loop produces `ceil(length / msgLen)`
chunks, all but the last of length exactly `msgLen`, concatenating back
to the original text. -/
theorem splitMessage_noNewline_aux :
    ∀ (n msgLen : Nat), 0 < msgLen →
      ∀ text : List Char, text.length ≤ n → '\n' ∉ text → 0 < text.length →
        (splitMessage msgLen text).length = (text.length + msgLen - 1) / msgLen ∧
        (∀ c ∈ (splitMessage msgLen text).dropLast, c.length = msgLen) ∧
        (splitMessage msgLen text).flatten = text := by
  intro n msgLen hm
  induction n with
  | zero => intro text hn hnl hpos; omega
  | succ n ih =>
    intro text hn hnl hpos
    by_cases hcut : msgLen < text.length
    · have hnone : lastNewlineAtMost text msgLen = none :=
        lastNewlineAtMost_of_not_mem text msgLen hnl
      have hstep : splitStep msgLen text = (text.take msgLen, text.drop msgLen) := by
        simp [splitStep, hnone]
      have hcons := splitMessage_cons msgLen text hm hcut
      rw [hstep] at hcons
      have hrnl : '\n' ∉ text.drop msgLen := fun hmem => hnl (List.drop_subset msgLen text hmem)
      obtain ⟨hcount, hchunks, hflat⟩ :=
        ih (text.drop msgLen) (by simp; omega) hrnl (by simp; omega)
      refine ⟨?_, ?_, ?_⟩
      · rw [hcons]
        simp only [List.length_cons, hcount, List.length_drop]
        rw [show text.length - msgLen + msgLen - 1 = text.length - 1 by omega,
          show text.length + msgLen - 1 = text.length - 1 + msgLen by omega,
          Nat.add_div_right _ hm]
      · intro c hc
        rw [hcons] at hc
        have hne : splitMessage msgLen (text.drop msgLen) ≠ [] := splitMessage_ne_nil _ _
        rcases hq : splitMessage msgLen (text.drop msgLen) with _ | ⟨d, ds⟩
        · exact absurd hq hne
        · rw [hq, List.dropLast_cons₂] at hc
          rcases List.mem_cons.1 hc with rfl | hc2
          · simp [List.length_take]
            omega
          · exact hchunks c (by rw [hq]; exact hc2)
      · rw [hcons]
        simp only [List.flatten_cons, hflat]
        exact List.take_append_drop msgLen text
    · have hone : splitMessage msgLen text = [text] := by
        obtain ⟨k, hk⟩ : ∃ k, text.length = k + 1 := ⟨text.length - 1, by omega⟩
        unfold splitMessage
        rw [hk]
        simp [splitMessageFuel, hcut]
      rw [hone]
      refine ⟨?_, by simp, by simp⟩
      simp only [List.length_cons, List.length_nil]
      symm
      exact Nat.div_eq_of_lt_le (by omega) (by omega)

end Liblog

namespace Liblog

/-- C2: for newline-free text strictly longer than the split threshold,
the encoder emits exactly `ceil(N / S)` JSON objects — one per carved
chunk — and every chunk except possibly the last carries exactly `S`
characters of the raw, pre-escaping text (the chunks concatenate back to
the whole text). -/
theorem printMessage_noNewline_chunks :
    ∀ (msgLen : Nat) (text : List Char), 0 < msgLen → '\n' ∉ text → msgLen < text.length →
      (splitMessage msgLen text).length = (text.length + msgLen - 1) / msgLen ∧
      (∀ c ∈ (splitMessage msgLen text).dropLast, c.length = msgLen) ∧
      (splitMessage msgLen text).flatten = text ∧
      ∀ (marshal : List Char → String) (loggerLevel msgLevel : Int),
        loggerLevel ≤ msgLevel →
        (printMessage marshal loggerLevel msgLevel msgLen text).length =
          (text.length + msgLen - 1) / msgLen := by
  intro msgLen text hm hnl hcut
  obtain ⟨h1, h2, h3⟩ :=
    splitMessage_noNewline_aux text.length msgLen hm text le_rfl hnl (by omega)
  refine ⟨h1, h2, h3, ?_⟩
  intro marshal ll ml hle
  simp [printMessage, not_lt.mpr hle, h1]

/-- Witness for `printMessage_noNewline_chunks`: eight newline-free
characters at threshold 3 yield three objects, the first two of exactly
three characters. -/
theorem printMessage_noNewline_chunks_witness :
    (splitMessage 3 ['a', 'b', 'c', 'd', 'e', 'f', 'g', 'h']).length =
      ((['a', 'b', 'c', 'd', 'e', 'f', 'g', 'h'] : List Char).length + 3 - 1) / 3 ∧
    (∀ c ∈ (splitMessage 3 ['a', 'b', 'c', 'd', 'e', 'f', 'g', 'h']).dropLast,
      c.length = 3) ∧
    (splitMessage 3 ['a', 'b', 'c', 'd', 'e', 'f', 'g', 'h']).flatten =
      ['a', 'b', 'c', 'd', 'e', 'f', 'g', 'h'] ∧
    ∀ (marshal : List Char → String) (loggerLevel msgLevel : Int),
      loggerLevel ≤ msgLevel →
      (printMessage marshal loggerLevel msgLevel 3 ['a', 'b', 'c', 'd', 'e', 'f', 'g', 'h']).length =
        ((['a', 'b', 'c', 'd', 'e', 'f', 'g', 'h'] : List Char).length + 3 - 1) / 3 :=
  printMessage_noNewline_chunks 3 ['a', 'b', 'c', 'd', 'e', 'f', 'g', 'h']
    (by decide) (by decide) (by decide)

/-- C3: one carving step of the encoder cuts at the last newline at an
offset at or before the threshold when one exists — the prefix stops
before the newline, which is consumed and not emitted, and the remainder
resumes just past it — and cuts at exactly the threshold offset when the
window holds no newline; `splitMessage` proceeds by exactly these
steps. -/
theorem splitStep_window :
    ∀ (msgLen : Nat) (text : List Char), 0 < msgLen → msgLen < text.length →
      ((∀ p, p ≤ msgLen → text[p]? ≠ some '\n') →
        splitStep msgLen text = (text.take msgLen, text.drop msgLen) ∧
        (text.take msgLen).length = msgLen ∧
        text.take msgLen ++ text.drop msgLen = text) ∧
      (∀ p, p ≤ msgLen → text[p]? = some '\n' →
        (∀ q, p < q → q ≤ msgLen → text[q]? ≠ some '\n') →
        splitStep msgLen text = (text.take p, text.drop (p + 1)) ∧
        (text.take p).length = p ∧
        text.take p ++ '\n' :: text.drop (p + 1) = text) ∧
      splitMessage msgLen text =
        (splitStep msgLen text).1 :: splitMessage msgLen (splitStep msgLen text).2 := by
  intro msgLen text hm hcut
  refine ⟨?_, ?_, splitMessage_cons msgLen text hm hcut⟩
  · intro h
    have hnone := lastNewlineAtMost_eq_none text msgLen h
    refine ⟨by simp [splitStep, hnone], ?_, List.take_append_drop _ _⟩
    simp [List.length_take]
    omega
  · intro p hp hget hlast
    have hsome := lastNewlineAtMost_eq_some text msgLen p hp hget hlast
    have hplen : p < text.length := by
      by_contra hcon
      rw [List.getElem?_eq_none (by omega)] at hget
      simp at hget
    refine ⟨by simp [splitStep, hsome], ?_, ?_⟩
    · simp [List.length_take]
      omega
    · conv_rhs => rw [← List.take_append_drop p text]
      congr 1
      rw [List.drop_eq_getElem_cons hplen]
      have hval : text[p] = '\n' := by
        simpa [List.getElem?_eq_getElem hplen] using hget
      rw [hval]

/-- Witness for `splitStep_window`: with threshold 3, the text
`a\nbcd` is carved at its newline (offset 1): prefix `a`, remainder
`bcd`. -/
theorem splitStep_window_witness :
    ((∀ p, p ≤ 3 → (['a', '\n', 'b', 'c', 'd'] : List Char)[p]? ≠ some '\n') →
      splitStep 3 ['a', '\n', 'b', 'c', 'd'] =
        ((['a', '\n', 'b', 'c', 'd'] : List Char).take 3,
         (['a', '\n', 'b', 'c', 'd'] : List Char).drop 3) ∧
      ((['a', '\n', 'b', 'c', 'd'] : List Char).take 3).length = 3 ∧
      (['a', '\n', 'b', 'c', 'd'] : List Char).take 3 ++
        (['a', '\n', 'b', 'c', 'd'] : List Char).drop 3 = ['a', '\n', 'b', 'c', 'd']) ∧
    (∀ p, p ≤ 3 → (['a', '\n', 'b', 'c', 'd'] : List Char)[p]? = some '\n' →
      (∀ q, p < q → q ≤ 3 → (['a', '\n', 'b', 'c', 'd'] : List Char)[q]? ≠ some '\n') →
      splitStep 3 ['a', '\n', 'b', 'c', 'd'] =
        ((['a', '\n', 'b', 'c', 'd'] : List Char).take p,
         (['a', '\n', 'b', 'c', 'd'] : List Char).drop (p + 1)) ∧
      ((['a', '\n', 'b', 'c', 'd'] : List Char).take p).length = p ∧
      (['a', '\n', 'b', 'c', 'd'] : List Char).take p ++
        '\n' :: (['a', '\n', 'b', 'c', 'd'] : List Char).drop (p + 1) =
        ['a', '\n', 'b', 'c', 'd']) ∧
    splitMessage 3 ['a', '\n', 'b', 'c', 'd'] =
      (splitStep 3 ['a', '\n', 'b', 'c', 'd']).1 ::
        splitMessage 3 (splitStep 3 ['a', '\n', 'b', 'c', 'd']).2 :=
  splitStep_window 3 ['a', '\n', 'b', 'c', 'd'] (by decide) (by decide)

end Liblog
